import Mathlib

/-!
Verification of the campaign-critic feature-scoring pipeline.

The development shallowly embeds the feature-engineering and scoring code of
the repository: the reference-cohort aggregation and weighted-score cells of
`6_building_suggestions_graph.ipynb`, the training-matrix layout of the
model-training notebook, and (modelled from the specification, since the
`feature_engineering` module itself is not part of the snapshot) the meta
feature extractor.

Numeric cells of the data frames are modelled by `Val`: a floating-point
style value that is either missing (`nan`), infinite, or an exact rational.
Arithmetic and comparisons on `Val` follow IEEE conventions as realised by
numpy/pandas: division of a positive finite value by zero gives `inf`,
`0 / 0` gives `nan`, every comparison involving `nan` is false, and the
quantile uses linear interpolation on the virtual index `q * (n - 1)` after
dropping `nan` entries.  Label-list indexing of a series (`s[names]`) fails
when any requested label is missing, which is the pandas contract for
selecting a list of labels; this is modelled with `Option`.
-/

namespace CampaignCritic

/-- The fixed ordered list of 19 meta feature names, exactly as defined in
the `features` list of the notebooks. -/
def features : List String :=
  ["num_sents", "num_words", "num_all_caps", "percent_all_caps",
   "num_exclms", "percent_exclms", "num_apple_words",
   "percent_apple_words", "avg_words_per_sent", "num_paragraphs",
   "avg_sents_per_paragraph", "avg_words_per_paragraph",
   "num_images", "num_videos", "num_youtubes", "num_gifs",
   "num_hyperlinks", "num_bolded", "percent_bolded"]

/-- The ordered list of the six most predictive meta features
(`predictive_features` in the notebook). -/
def predictive_features : List String :=
  ["num_hyperlinks", "num_images", "num_apple_words",
   "num_exclms", "percent_bolded", "num_words"]

/-- A floating-point data-frame cell: missing (`nan`), infinite, or an exact
finite rational. -/
inductive Val where
  | nan : Val
  | inf : Val
  | neginf : Val
  | fin : ℚ → Val
deriving DecidableEq, Repr

/-- Whether a cell is missing (`NaN`). -/
def Val.isNan : Val → Bool
  | .nan => true
  | _ => false

/-- IEEE-style negation. -/
def vneg : Val → Val
  | .nan => .nan
  | .inf => .neginf
  | .neginf => .inf
  | .fin x => .fin (-x)

/-- IEEE-style addition: `nan` is absorbing, `inf + (-inf)` is `nan`. -/
def vadd : Val → Val → Val
  | .nan, _ => .nan
  | _, .nan => .nan
  | .inf, .neginf => .nan
  | .neginf, .inf => .nan
  | .inf, _ => .inf
  | _, .inf => .inf
  | .neginf, _ => .neginf
  | _, .neginf => .neginf
  | .fin x, .fin y => .fin (x + y)

/-- IEEE-style subtraction. -/
def vsub (a b : Val) : Val := vadd a (vneg b)

/-- IEEE-style multiplication: `nan` is absorbing, `0 * inf` is `nan`. -/
def vmul : Val → Val → Val
  | .nan, _ => .nan
  | _, .nan => .nan
  | .inf, .inf => .inf
  | .inf, .neginf => .neginf
  | .neginf, .inf => .neginf
  | .neginf, .neginf => .inf
  | .inf, .fin y => if 0 < y then .inf else if y < 0 then .neginf else .nan
  | .fin x, .inf => if 0 < x then .inf else if x < 0 then .neginf else .nan
  | .neginf, .fin y => if 0 < y then .neginf else if y < 0 then .inf else .nan
  | .fin x, .neginf => if 0 < x then .neginf else if x < 0 then .inf else .nan
  | .fin x, .fin y => .fin (x * y)

/-- IEEE-style division, as numpy performs it on data-frame columns: a
positive finite value divided by zero is `inf`, a negative one `neginf`,
and `0 / 0` is `nan`; `nan` is absorbing. -/
def vdiv : Val → Val → Val
  | .nan, _ => .nan
  | _, .nan => .nan
  | .inf, .inf => .nan
  | .inf, .neginf => .nan
  | .neginf, .inf => .nan
  | .neginf, .neginf => .nan
  | .inf, .fin y => if 0 ≤ y then .inf else .neginf
  | .neginf, .fin y => if 0 ≤ y then .neginf else .inf
  | .fin _, .inf => .fin 0
  | .fin _, .neginf => .fin 0
  | .fin x, .fin y =>
      if y = 0 then (if 0 < x then .inf else if x < 0 then .neginf else .nan)
      else .fin (x / y)

/-- IEEE-style `≤` as a boolean: any comparison involving `nan` is false. -/
def vleB : Val → Val → Bool
  | .nan, _ => false
  | _, .nan => false
  | .neginf, _ => true
  | _, .neginf => false
  | _, .inf => true
  | .inf, _ => false
  | .fin x, .fin y => decide (x ≤ y)

/-- IEEE-style `≥` as a boolean. -/
def vgeB (a b : Val) : Bool := vleB b a

/-- IEEE-style equality as a boolean: `nan` compares unequal to everything,
itself included. -/
def veqB : Val → Val → Bool
  | .nan, _ => false
  | _, .nan => false
  | .inf, .inf => true
  | .neginf, .neginf => true
  | .fin x, .fin y => decide (x = y)
  | _, _ => false

/-- Insert a value into a `vleB`-sorted list. -/
def insertVal (v : Val) : List Val → List Val
  | [] => [v]
  | w :: ws => if vleB v w then v :: w :: ws else w :: insertVal v ws

/-- Insertion sort by `vleB` (applied only to `nan`-free lists, on which
`vleB` is total). -/
def sortVals (l : List Val) : List Val := l.foldr insertVal []

/-- Floor of a nonnegative rational as a natural number. -/
def ratFloorNat (x : ℚ) : ℕ := (x.num.fdiv x.den).toNat

/-- The `q`-th quantile of a list of cells with linear interpolation, as
`Series.quantile` computes it: drop the `nan` entries, sort, take the
virtual index `pos = q * (n - 1)`, and interpolate
`a + t * (b - a)` between the values at `floor pos` and `ceil pos`.
The quantile of an empty (or all-`nan`) series is `nan`. -/
def valQuantile (xs : List Val) (q : ℚ) : Val :=
  let vs := sortVals (xs.filter (fun v => !v.isNan))
  if vs.length = 0 then .nan
  else
    let pos : ℚ := q * ((vs.length : ℚ) - 1)
    let i : ℕ := ratFloorNat pos
    let t : ℚ := pos - (i : ℚ)
    let j : ℕ := if t = 0 then i else i + 1
    let a := vs.getD i .nan
    let b := vs.getD j .nan
    vadd a (vmul (.fin t) (vsub b a))

/-- A row of the queried training-set table: the `pledged` and `goal`
columns together with the 19 meta feature columns, in the order of
`features`.  Every cell is numeric or missing. -/
structure Row where
  pledged : Val
  goal : Val
  feats : List Val
deriving DecidableEq, Repr

/-- `section1_df_full['percent_funded'] = pledged / goal`, the per-row
success ratio. -/
def percent_funded (r : Row) : Val := vdiv r.pledged r.goal

/-- `quantile_limit = section1_df_full['percent_funded'].quantile(q)`. -/
def quantile_limit (cohort : List Row) (q : ℚ) : Val :=
  valQuantile (cohort.map percent_funded) q

/-- `top_projects = section1_df_full[percent_funded >= quantile_limit]`. -/
def top_projects (cohort : List Row) (q : ℚ) : List Row :=
  cohort.filter (fun r => vgeB (percent_funded r) (quantile_limit cohort q))

/-- `fillna(0)` on a single cell. -/
def fillZero (v : Val) : Val := if v.isNan then .fin 0 else v

/-- `X_cleaned = X[~X.isnull().all(axis=1)].fillna(0)`: from the feature
columns of the selected rows, drop the rows in which every feature is
missing, then fill the remaining missing cells with zero. -/
def X_cleaned (top : List Row) : List (List Val) :=
  ((top.map Row.feats).filter (fun fs => !(fs.all Val.isNan))).map
    (fun fs => fs.map fillZero)

/-- Sum of a list of cells under IEEE addition. -/
def vsum (l : List Val) : Val := l.foldr vadd (.fin 0)

/-- Column mean as `DataFrame.mean` computes it: skip the missing cells and
divide their sum by their count; the mean of an empty column is `nan`. -/
def colMean (col : List Val) : Val :=
  let vs := col.filter (fun v => !v.isNan)
  if vs.length = 0 then .nan else vdiv (vsum vs) (.fin (vs.length : ℚ))

/-- `avg_top_projects = X_cleaned.mean()`: the per-feature column means of
the cleaned top cohort, keyed by the 19 feature names. -/
def avg_top_projects (cohort : List Row) (q : ℚ) : List (String × Val) :=
  let Xc := X_cleaned (top_projects cohort q)
  (List.range features.length).map
    (fun j => (features.getD j "", colMean (Xc.map (fun fs => fs.getD j Val.nan))))

/-- Label-list selection on a series, `s[names]`: the values of the
requested labels in request order, or a lookup failure (`none`, the pandas
`KeyError`) when any label is absent. -/
def lookupAll (s : List (String × ℚ)) : List String → Option (List ℚ)
  | [] => some []
  | n :: ns =>
      match s.lookup n, lookupAll s ns with
      | some v, some vs => some (v :: vs)
      | _, _ => none

/-- `user_project_score = np.multiply(feature_vector_std[subset],
feature_ranks[subset])`: the per-feature weighted score, keyed by the
requested feature names; fails when a requested name is absent from either
series. -/
def user_project_score (std ranks : List (String × ℚ)) (subset : List String) :
    Option (List (String × ℚ)) :=
  match lookupAll std subset, lookupAll ranks subset with
  | some a, some b => some (subset.zip (List.zipWith (fun x y => x * y) a b))
  | _, _ => none

/-- The human-readable labels of the six predictive features, in the order
of `predictive_features` (the `labels` list of the plotting cell). -/
def labels : List String :=
  ["hyperlinks", "images", "innovation words", "exclamation marks",
   "bolded text", "length of description"]

/-- The fixed feature-name-to-label table: the positional pairing of
`predictive_features` with `labels` induced by the chart code. -/
def labelTable : List (String × String) := predictive_features.zip labels

/-- `messy = pd.DataFrame([user_project_score, top_project_score],
index=['Your project', 'Top projects']).T.reset_index()`: one row per
feature of the two score series (which share the same index in the same
order), carrying the feature name, the candidate score and the reference
score, in series order. -/
def messy (cand top : List (String × ℚ)) : List (String × ℚ × ℚ) :=
  List.zipWith (fun c t => (c.1, c.2, t.2)) cand top

/-- `tidy = pd.melt(messy, id_vars='index', value_vars=['Your project',
'Top projects'], var_name=' ')`: the long-format rows — first every feature
with its candidate score, then every feature with its reference score, both
groups in the `messy` row order. -/
def tidy (rows : List (String × ℚ × ℚ)) : List (String × String × ℚ) :=
  rows.map (fun r => (r.1, "Your project", r.2.1)) ++
    rows.map (fun r => (r.1, "Top projects", r.2.2))

/-- The presentation rows of the grouped bar chart after
`plt.yticks(np.arange(len(predictive_features)), labels)`: the `j`-th chart
position shows the `j`-th row of `messy` relabeled with the `j`-th entry of
the fixed `labels` list — a purely positional relabeling that never
consults the feature name. -/
def chartRows (cand top : List (String × ℚ)) : List (String × ℚ × ℚ) :=
  List.zipWith (fun l (p : String × ℚ × ℚ) => (l, p.2.1, p.2.2)) labels
    (messy cand top)

/-- A column of the training design matrix: a standardized meta feature or
an n-gram dimension. -/
inductive TrainCol where
  | meta (name : String) : TrainCol
  | ngram (i : ℕ) : TrainCol
deriving DecidableEq, Repr

/-- The column layout of `X_full = sparse.hstack([X_std_sparse, X_ngrams])`
in the training notebook: the 19 standardized meta feature columns first,
then the `m` n-gram columns. -/
def X_full_cols (m : ℕ) : List TrainCol :=
  features.map TrainCol.meta ++ (List.range m).map TrainCol.ngram

/-- `feature_ranks = pd.Series(clf.coef_.T.ravel()[:len(features)],
index=features)`: the first 19 entries of the trained coefficient row,
paired positionally with the 19 feature names. -/
def feature_ranks (coefRow : List ℚ) : List (String × ℚ) :=
  features.zip (coefRow.take features.length)

/-- Modelled from the spec: the `feature_engineering` module that implements
`process_project` (the TextNormalizer and FeatureExtractor) is not part of
the repository snapshot, only its callers are.  The normalized structural
counts that the extractor derives from the raw campaign text, per the
specification: sentences, words, all-caps tokens, exclamation marks,
innovation-keyword hits, paragraphs, images, videos, embedded-video links,
animated-image links, hyperlinks, bolded spans, bolded characters and total
characters. -/
structure RawCounts where
  sents : ℕ
  words : ℕ
  allCaps : ℕ
  exclms : ℕ
  appleWords : ℕ
  paragraphs : ℕ
  images : ℕ
  videos : ℕ
  youtubes : ℕ
  gifs : ℕ
  hyperlinks : ℕ
  bolded : ℕ
  boldedChars : ℕ
  totalChars : ℕ
deriving DecidableEq, Repr

/-- Modelled from the spec: a ratio or average whose denominator is zero
resolves to 0, not `NaN` and not an error. -/
def safeDiv (a b : ℚ) : ℚ := if b = 0 then 0 else a / b

/-- Modelled from the spec: `extract` computes the 19 fixed meta features
from the normalized counts — counts verbatim, ratios and averages through
the zero-denominator-safe division. -/
def extract (r : RawCounts) : List (String × ℚ) :=
  [("num_sents", (r.sents : ℚ)),
   ("num_words", (r.words : ℚ)),
   ("num_all_caps", (r.allCaps : ℚ)),
   ("percent_all_caps", safeDiv (r.allCaps : ℚ) (r.words : ℚ)),
   ("num_exclms", (r.exclms : ℚ)),
   ("percent_exclms", safeDiv (r.exclms : ℚ) (r.sents : ℚ)),
   ("num_apple_words", (r.appleWords : ℚ)),
   ("percent_apple_words", safeDiv (r.appleWords : ℚ) (r.words : ℚ)),
   ("avg_words_per_sent", safeDiv (r.words : ℚ) (r.sents : ℚ)),
   ("num_paragraphs", (r.paragraphs : ℚ)),
   ("avg_sents_per_paragraph", safeDiv (r.sents : ℚ) (r.paragraphs : ℚ)),
   ("avg_words_per_paragraph", safeDiv (r.words : ℚ) (r.paragraphs : ℚ)),
   ("num_images", (r.images : ℚ)),
   ("num_videos", (r.videos : ℚ)),
   ("num_youtubes", (r.youtubes : ℚ)),
   ("num_gifs", (r.gifs : ℚ)),
   ("num_hyperlinks", (r.hyperlinks : ℚ)),
   ("num_bolded", (r.bolded : ℚ)),
   ("percent_bolded", safeDiv (r.boldedChars : ℚ) (r.totalChars : ℚ))]

/-- Whether a cell is an ordinary data-frame cell: numeric (finite) or
missing — the only cell shapes a queried table contains. -/
def numericCell : Val → Bool
  | .nan => true
  | .fin _ => true
  | _ => false

/-- The value of a numeric-or-missing cell after zero-filling, as a
rational: a missing cell counts as 0 and a finite cell as its value. -/
def cellToRat : Val → ℚ
  | .fin x => x
  | _ => 0

/-- The selected rows that survive the fully-null-row drop, before
zero-filling: the feature rows of the top cohort in which not every cell is
missing. -/
def keptRows (cohort : List Row) (q : ℚ) : List (List Val) :=
  ((top_projects cohort q).map Row.feats).filter (fun fs => !(fs.all Val.isNan))

/-- The reference value of feature column `j` stated the way the
specification words it: among the selected rows drop those in which every
feature is missing, fill each remaining missing value with 0, and take the
arithmetic mean (sum divided by count) of the column; `nan` when no row
remains. -/
def referenceMeanSpec (cohort : List Row) (q : ℚ) (j : ℕ) : Val :=
  let kept := keptRows cohort q
  if kept.length = 0 then Val.nan
  else Val.fin ((kept.map (fun fs => cellToRat (fs.getD j Val.nan))).sum /
    (kept.length : ℚ))

/-- End-to-end scenario 1, first row: pledged 200, goal 100, all features 0. -/
def scenarioRow1 : Row := ⟨Val.fin 200, Val.fin 100, List.replicate 19 (Val.fin 0)⟩

/-- End-to-end scenario 1, second row: pledged 50, goal 100, `num_images` 2
(position 12 of the feature order) and the other features 0. -/
def scenarioRow2 : Row :=
  ⟨Val.fin 50, Val.fin 100,
   List.replicate 12 (Val.fin 0) ++ [Val.fin 2] ++ List.replicate 6 (Val.fin 0)⟩

/-- End-to-end scenario 1 cohort. -/
def scenarioCohort : List Row := [scenarioRow1, scenarioRow2]

/-- A single-row cohort whose only success ratio, 1, is therefore also the
computed quantile threshold: a tie at the boundary. -/
def tieRow : Row := ⟨Val.fin 100, Val.fin 100, List.replicate 19 (Val.fin 0)⟩

/-- A row with `goal = 0` and positive `pledged`: its success ratio is an
infinite value, not a skip and not a crash. -/
def zeroGoalRow : Row :=
  ⟨Val.fin 10, Val.fin 0,
   List.replicate 12 (Val.fin 0) ++ [Val.fin 5] ++ List.replicate 6 (Val.fin 0)⟩

/-- A cohort containing a zero-goal row next to an ordinary row. -/
def zeroGoalCohort : List Row :=
  [⟨Val.fin 50, Val.fin 100, List.replicate 19 (Val.fin 0)⟩, zeroGoalRow]

/-- A row whose `goal` is missing: its success ratio is `nan`, so it is
never selected and the resulting reference cohort is empty. -/
def emptyCohortRow : Row := ⟨Val.fin 50, Val.nan, List.replicate 19 (Val.fin 1)⟩

/-- A one-row cohort of all-ones cells, used to witness the reference-mean
computation. -/
def onesRow : Row := ⟨Val.fin 1, Val.fin 1, List.replicate 19 (Val.fin 1)⟩

/-- An all-ones raw-count input, used to witness the extractor shape. -/
def allOnesRaw : RawCounts := ⟨1, 1, 1, 1, 1, 1, 1, 1, 1, 1, 1, 1, 1, 1⟩

/-- A one-entry standardized series used to witness the scoring contract. -/
def witnessStd : List (String × ℚ) := [("num_words", 3)]

/-- A one-entry coefficient series used to witness the scoring contract. -/
def witnessRanks : List (String × ℚ) := [("num_words", 2)]

section
attribute [local semireducible] Rat.add Rat.mul Rat.sub Rat.inv

theorem vleB_nan_right (v : Val) : vleB v Val.nan = false := by
  cases v <;> rfl

theorem vgeB_of_veqB {a b : Val} (h : veqB a b = true) : vgeB a b = true := by
  cases a <;> cases b <;> simp_all [veqB, vgeB, vleB]

theorem safeDiv_nonneg {a b : ℚ} (ha : 0 ≤ a) (hb : 0 ≤ b) : 0 ≤ safeDiv a b := by
  unfold safeDiv
  split
  · exact le_refl 0
  · exact div_nonneg ha hb

/-- C2: cohort selection is inclusive at the quantile boundary — a row whose
success ratio compares equal (IEEE equality) to the computed quantile
threshold passes the `≥` filter and is selected; and on the scenario-1
cohort with quantile 0.5 the threshold is 1.25, only the first row is
selected, and the reference `num_images` mean is 0. -/
theorem C2_quantile_boundary_inclusive :
    (∀ (cohort : List Row) (q : ℚ) (r : Row), r ∈ cohort →
        veqB (percent_funded r) (quantile_limit cohort q) = true →
        r ∈ top_projects cohort q) ∧
    quantile_limit scenarioCohort (1/2) = Val.fin (5/4) ∧
    top_projects scenarioCohort (1/2) = [scenarioRow1] ∧
    (avg_top_projects scenarioCohort (1/2)).lookup "num_images" = some (Val.fin 0) := by
  refine ⟨?_, by decide, by decide, by decide⟩
  intro cohort q r hr heq
  unfold top_projects
  rw [List.mem_filter]
  exact ⟨hr, vgeB_of_veqB heq⟩

/-- C2 witness: in a one-row cohort the single success ratio 1 is exactly
the quantile threshold, and that tied row is selected. -/
theorem C2_quantile_boundary_inclusive_witness :
    veqB (percent_funded tieRow) (quantile_limit [tieRow] (1/2)) = true ∧
    tieRow ∈ top_projects [tieRow] (1/2) :=
  ⟨by decide,
   C2_quantile_boundary_inclusive.1 [tieRow] (1/2) tieRow (by decide) (by decide)⟩

/-- C3 counterexample: a row with `goal = 0` and `pledged = 10` is not
excluded — its success ratio is infinite, it is selected into the top
cohort, and it alone determines the reference `num_images` mean of 5. -/
theorem C3_zero_goal_counterexample :
    zeroGoalRow.goal = Val.fin 0 ∧
    zeroGoalRow ∈ top_projects zeroGoalCohort (1/2) ∧
    (avg_top_projects zeroGoalCohort (1/2)).lookup "num_images" = some (Val.fin 5) := by
  refine ⟨rfl, by decide, by decide⟩

/-- C3 amended: rows whose success ratio is `nan` (missing goal, missing
pledged, or `0 / 0`) are excluded from the selection without crashing and
contribute nothing to the quantile threshold; but a row with `goal = 0` and
positive `pledged` gets an infinite ratio and is therefore not excluded. -/
theorem C3_nan_rows_excluded :
    (∀ (cohort : List Row) (q : ℚ) (r : Row), r ∈ cohort →
        percent_funded r = Val.nan → r ∉ top_projects cohort q) ∧
    (∀ (cohort : List Row) (q : ℚ),
        quantile_limit cohort q =
          valQuantile ((cohort.map percent_funded).filter (fun v => !v.isNan)) q) ∧
    (∀ (r : Row) (x : ℚ), r.goal = Val.fin 0 → r.pledged = Val.fin x → 0 < x →
        percent_funded r = Val.inf) := by
  refine ⟨?_, ?_, ?_⟩
  · intro cohort q r _ hnan hmem
    unfold top_projects at hmem
    rw [List.mem_filter, hnan] at hmem
    have : vgeB Val.nan (quantile_limit cohort q) = false :=
      vleB_nan_right (quantile_limit cohort q)
    rw [this] at hmem
    exact Bool.false_ne_true hmem.2
  · intro cohort q
    simp [quantile_limit, valQuantile, List.filter_filter]
  · intro r x hg hp hx
    unfold percent_funded
    rw [hg, hp]
    simp [vdiv, hx]

/-- C3 amended witness: the zero-goal row's ratio is the infinite value. -/
theorem C3_nan_rows_excluded_witness : percent_funded zeroGoalRow = Val.inf :=
  C3_nan_rows_excluded.2.2 zeroGoalRow 10 rfl rfl (by norm_num)

/-- C5 counterexample: on a cohort whose selection is empty after filtering
and null-row removal, `build_reference` does not report any distinct error
condition — it returns an ordinary full 19-name vector (every mean being
`nan`, the mean of an empty column). -/
theorem C5_empty_cohort_counterexample :
    X_cleaned (top_projects [emptyCohortRow] (19/20)) = [] ∧
    (avg_top_projects [emptyCohortRow] (19/20)).map Prod.fst = features ∧
    (avg_top_projects [emptyCohortRow] (19/20)).lookup "num_images" = some Val.nan := by
  refine ⟨by decide, by decide, by decide⟩

/-- C5 amended: whenever the cleaned selection is empty, the aggregation
returns normally with the full 19-name vector whose every value is `nan`
(distinguishable from a zero vector, but not a signalled error). -/
theorem C5_empty_cohort_returns_nan_vector :
    ∀ (cohort : List Row) (q : ℚ),
      X_cleaned (top_projects cohort q) = [] →
      (avg_top_projects cohort q).map Prod.fst = features ∧
      ∀ p ∈ avg_top_projects cohort q, p.2 = Val.nan := by
  intro cohort q h
  constructor
  · simp only [avg_top_projects, List.map_map]
    have hfst :
        List.map
          (Prod.fst ∘ fun j =>
            (features.getD j "",
             colMean (List.map (fun fs => fs.getD j Val.nan)
               (X_cleaned (top_projects cohort q)))))
          (List.range features.length) =
        List.map (fun j => features.getD j "") (List.range features.length) :=
      List.map_congr_left (fun a _ => rfl)
    rw [hfst]
    decide
  · intro p hp
    simp only [avg_top_projects, h, List.mem_map, List.mem_range] at hp
    obtain ⟨j, _, rfl⟩ := hp
    rfl

/-- C5 amended witness: the missing-goal singleton cohort produces an empty
selection, and the returned vector still carries all 19 names. -/
theorem C5_empty_cohort_returns_nan_vector_witness :
    (avg_top_projects [emptyCohortRow] (19/20)).map Prod.fst = features :=
  (C5_empty_cohort_returns_nan_vector [emptyCohortRow] (19/20) (by decide)).1

/-- C4: every ratio or average of the extractor whose denominator is zero
resolves to 0 — zero sentences give `avg_words_per_sent = 0` and
`percent_exclms = 0`, zero words give zero all-caps and innovation
percentages, zero paragraphs give zero per-paragraph averages, zero total
characters give `percent_bolded = 0`, and an input with no exclamation
marks and no sentences gives `num_exclms = 0` and `percent_exclms = 0`. -/
theorem C4_zero_denominator_safety (r : RawCounts) :
    (r.words = 0 → (extract r).lookup "percent_all_caps" = some 0 ∧
        (extract r).lookup "percent_apple_words" = some 0) ∧
    (r.sents = 0 → (extract r).lookup "avg_words_per_sent" = some 0 ∧
        (extract r).lookup "percent_exclms" = some 0) ∧
    (r.paragraphs = 0 → (extract r).lookup "avg_sents_per_paragraph" = some 0 ∧
        (extract r).lookup "avg_words_per_paragraph" = some 0) ∧
    (r.totalChars = 0 → (extract r).lookup "percent_bolded" = some 0) ∧
    (r.exclms = 0 → r.sents = 0 → (extract r).lookup "num_exclms" = some 0 ∧
        (extract r).lookup "percent_exclms" = some 0) := by
  obtain ⟨sents, words, allCaps, exclms, appleWords, paragraphs, images, videos,
    youtubes, gifs, hyperlinks, bolded, boldedChars, totalChars⟩ := r
  refine ⟨fun h => ?_, fun h => ?_, fun h => ?_, fun h => ?_, fun h1 h2 => ?_⟩ <;>
    simp_all [extract, safeDiv, List.lookup]

/-- C4 witness: the all-zero input evaluates as the claim states. -/
theorem C4_zero_denominator_safety_witness :
    (extract ⟨0, 0, 0, 0, 0, 0, 0, 0, 0, 0, 0, 0, 0, 0⟩).lookup "avg_words_per_sent" =
      some 0 ∧
    (extract ⟨0, 0, 0, 0, 0, 0, 0, 0, 0, 0, 0, 0, 0, 0⟩).lookup "num_exclms" = some 0 ∧
    (extract ⟨0, 0, 0, 0, 0, 0, 0, 0, 0, 0, 0, 0, 0, 0⟩).lookup "percent_exclms" =
      some 0 :=
  ⟨((C4_zero_denominator_safety ⟨0, 0, 0, 0, 0, 0, 0, 0, 0, 0, 0, 0, 0, 0⟩).2.1 rfl).1,
   ((C4_zero_denominator_safety ⟨0, 0, 0, 0, 0, 0, 0, 0, 0, 0, 0, 0, 0, 0⟩).2.2.2.2 rfl rfl).1,
   ((C4_zero_denominator_safety ⟨0, 0, 0, 0, 0, 0, 0, 0, 0, 0, 0, 0, 0, 0⟩).2.2.2.2 rfl rfl).2⟩

/-- C6: for every input, `extract` returns exactly the 19 fixed feature
names in order (hence no missing entry), and every value is a non-negative
rational (in particular finite). -/
theorem C6_extract_total_shape (r : RawCounts) :
    (extract r).map Prod.fst = features ∧ ∀ p ∈ extract r, 0 ≤ p.2 := by
  constructor
  · rfl
  · intro p hp
    fin_cases hp <;>
      first
        | exact Nat.cast_nonneg _
        | exact safeDiv_nonneg (Nat.cast_nonneg _) (Nat.cast_nonneg _)

/-- C6 witness: the all-ones input yields the 19 names in order, and its
first entry is non-negative. -/
theorem C6_extract_total_shape_witness :
    (extract allOnesRaw).map Prod.fst = features ∧
    0 ≤ ((extract allOnesRaw).getD 0 ("", 0)).2 :=
  ⟨(C6_extract_total_shape allOnesRaw).1,
   (C6_extract_total_shape allOnesRaw).2 _ (by decide)⟩

theorem lookupAll_eq_map (s : List (String × ℚ)) :
    ∀ ns : List String, (∀ n ∈ ns, (List.lookup n s).isSome = true) →
      lookupAll s ns = some (ns.map (fun n => (List.lookup n s).getD 0))
  | [], _ => rfl
  | n :: ns, h => by
      obtain ⟨v, hv⟩ := Option.isSome_iff_exists.1 (h n (List.mem_cons_self n ns))
      rw [lookupAll, hv,
        lookupAll_eq_map s ns (fun m hm => h m (List.mem_cons_of_mem n hm))]
      simp [hv]

theorem lookupAll_eq_none (s : List (String × ℚ)) (n : String) :
    ∀ ns : List String, n ∈ ns → List.lookup n s = none → lookupAll s ns = none := by
  intro ns
  induction ns with
  | nil => intro h _; exact absurd h (List.not_mem_nil n)
  | cons m ms ih =>
      intro hmem hnone
      rcases List.mem_cons.1 hmem with rfl | hm
      · rw [lookupAll, hnone]
      · rw [lookupAll, ih hm hnone]
        cases List.lookup m s <;> rfl

theorem zip_zipWith_mul_map (f g : String → ℚ) :
    ∀ ns : List String,
      ns.zip (List.zipWith (fun x y => x * y) (ns.map f) (ns.map g)) =
        ns.map (fun n => (n, f n * g n))
  | [] => rfl
  | n :: ns => by
      rw [List.map_cons, List.map_cons, List.zipWith_cons_cons, List.zip_cons_cons,
        zip_zipWith_mul_map f g ns, List.map_cons]

/-- C1: for every feature name present in both series, the score is the
product of the standardized value and the coefficient (in subset order);
and a subset containing any name absent from either series makes the whole
call fail with a lookup error, returning no partial output. -/
theorem C1_score_contract :
    (∀ (std ranks : List (String × ℚ)) (subset : List String),
        (∀ n ∈ subset, (List.lookup n std).isSome = true ∧
            (List.lookup n ranks).isSome = true) →
        user_project_score std ranks subset =
          some (subset.map (fun n =>
            (n, (List.lookup n std).getD 0 * (List.lookup n ranks).getD 0)))) ∧
    (∀ (std ranks : List (String × ℚ)) (subset : List String) (n : String),
        n ∈ subset → (List.lookup n std = none ∨ List.lookup n ranks = none) →
        user_project_score std ranks subset = none) := by
  constructor
  · intro std ranks subset h
    rw [user_project_score, lookupAll_eq_map std subset (fun n hn => (h n hn).1),
        lookupAll_eq_map ranks subset (fun n hn => (h n hn).2)]
    exact congrArg some (zip_zipWith_mul_map _ _ subset)
  · intro std ranks subset n hmem hnone
    rcases hnone with h | h
    · rw [user_project_score, lookupAll_eq_none std n subset hmem h]
    · rw [user_project_score, lookupAll_eq_none ranks n subset hmem h]
      cases lookupAll std subset <;> rfl

/-- C1 witness: a present name scores to the product, an absent name makes
the call fail. -/
theorem C1_score_contract_witness :
    user_project_score witnessStd witnessRanks ["num_words"] = some [("num_words", 6)] ∧
    user_project_score witnessStd witnessRanks ["typo_feature"] = none := by
  constructor
  · rw [C1_score_contract.1 witnessStd witnessRanks ["num_words"] (by decide)]
    decide
  · exact C1_score_contract.2 witnessStd witnessRanks ["typo_feature"] "typo_feature"
      (by decide) (Or.inl (by decide))

theorem lookup_scale (c : ℚ) (n : String) :
    ∀ v : List (String × ℚ),
      List.lookup n (v.map (fun p => (p.1, c * p.2))) =
        Option.map (fun x => c * x) (List.lookup n v)
  | [] => rfl
  | (k, x) :: v => by
      cases h : n == k <;> simp [List.lookup, h, lookup_scale c n v]

theorem lookupAll_scale (c : ℚ) (v : List (String × ℚ)) :
    ∀ ns : List String,
      lookupAll (v.map (fun p => (p.1, c * p.2))) ns =
        Option.map (List.map (fun x => c * x)) (lookupAll v ns)
  | [] => rfl
  | n :: ns => by
      rw [lookupAll, lookupAll, lookup_scale c n v, lookupAll_scale c v ns]
      cases List.lookup n v <;> cases lookupAll v ns <;> rfl

theorem zip_zipWith_scale (c : ℚ) :
    ∀ (ns : List String) (a b : List ℚ),
      ns.zip (List.zipWith (fun x y => x * y) (a.map (fun x => c * x)) b) =
        (ns.zip (List.zipWith (fun x y => x * y) a b)).map (fun p => (p.1, c * p.2))
  | [], _, _ => rfl
  | _ :: _, [], _ => rfl
  | _ :: _, _ :: _, [] => rfl
  | n :: ns, x :: a, y :: b => by
      rw [List.map_cons, List.zipWith_cons_cons, List.zipWith_cons_cons,
        List.zip_cons_cons, List.zip_cons_cons, List.map_cons,
        zip_zipWith_scale c ns a b, mul_assoc]

/-- C8: the score is linear in the standardized vector for fixed
coefficients — scaling every standardized entry by `c` scales every output
score by `c` (and preserves failure). -/
theorem C8_score_linearity (c : ℚ) (std ranks : List (String × ℚ))
    (subset : List String) :
    user_project_score (std.map (fun p => (p.1, c * p.2))) ranks subset =
      Option.map (List.map (fun p => (p.1, c * p.2)))
        (user_project_score std ranks subset) := by
  rw [user_project_score, user_project_score, lookupAll_scale c std subset]
  cases lookupAll std subset <;> cases lookupAll ranks subset <;>
    simp [zip_zipWith_scale]

/-- C9 counterexample: a feature subset holding `num_sents` — a valid meta
feature with no registered label among the six — does not make assembly
fail: the chart code totally produces a row and silently shows it under the
first positional label, `hyperlinks`. -/
theorem C9_unregistered_name_does_not_fail :
    chartRows [("num_sents", (2 : ℚ))] [("num_sents", (3 : ℚ))] =
      [("hyperlinks", 2, 3)] := rfl

/-- C9 amended: the presentation rows come back in exactly the
caller-supplied feature order whatever the score values are (never
reordered by magnitude), and the fixed six labels are applied positionally
— which, for the designed predictive subset, pairs every one of its six
names with exactly one label; there is no per-name lookup, so a feature
name with no registered label is not rejected but displayed under the label
of its position. -/
theorem C9_positional_label_assembly :
    (∀ c1 c2 c3 c4 c5 c6 r1 r2 r3 r4 r5 r6 : ℚ,
        chartRows (predictive_features.zip [c1, c2, c3, c4, c5, c6])
            (predictive_features.zip [r1, r2, r3, r4, r5, r6]) =
          [("hyperlinks", c1, r1), ("images", c2, r2),
            ("innovation words", c3, r3), ("exclamation marks", c4, r4),
            ("bolded text", c5, r5), ("length of description", c6, r6)]) ∧
    (∀ n ∈ predictive_features,
        (labelTable.filter (fun p => p.1 == n)).length = 1) ∧
    (∀ (n : String) (cv tv : ℚ),
        chartRows [(n, cv)] [(n, tv)] = [("hyperlinks", cv, tv)]) := by
  refine ⟨?_, by decide, ?_⟩
  · intro c1 c2 c3 c4 c5 c6 r1 r2 r3 r4 r5 r6
    rfl
  · intro n cv tv
    rfl

/-- C9 amended witness: concrete scores keep the caller order under the
positional labels, and `num_images` has exactly one label entry. -/
theorem C9_positional_label_assembly_witness :
    chartRows (predictive_features.zip [1, 2, 3, 4, 5, 6])
        (predictive_features.zip [6, 5, 4, 3, 2, 1]) =
      [("hyperlinks", 1, 6), ("images", 2, 5), ("innovation words", 3, 4),
        ("exclamation marks", 4, 3), ("bolded text", 5, 2),
        ("length of description", 6, 1)] ∧
    (labelTable.filter (fun p => p.1 == "num_images")).length = 1 :=
  ⟨C9_positional_label_assembly.1 1 2 3 4 5 6 6 5 4 3 2 1,
   C9_positional_label_assembly.2.1 "num_images" (by decide)⟩

theorem lookup_zip_getD {α : Type} (d : α) :
    ∀ (ks : List String) (vs : List α) (i : ℕ), ks.Nodup → i < ks.length →
      i < vs.length →
      List.lookup (ks.getD i "") (ks.zip vs) = some (vs.getD i d)
  | [], _, i, _, hik, _ => absurd hik (Nat.not_lt_zero i)
  | _ :: _, [], i, _, _, hiv => absurd hiv (Nat.not_lt_zero i)
  | k :: ks, v :: vs, 0, _, _, _ => by simp [List.lookup]
  | k :: ks, v :: vs, i + 1, hn, hik, hiv => by
      have hk : k ∉ ks := (List.nodup_cons.1 hn).1
      have hmem : ks.getD i "" ∈ ks := by
        rw [List.getD_eq_getElem _ _ (Nat.lt_of_succ_lt_succ hik)]
        exact List.getElem_mem _
      have hne : ((k :: ks).getD (i + 1) "" == k) = false := by
        rw [List.getD_cons_succ]
        exact beq_eq_false_iff_ne.2 (fun he => hk (he ▸ hmem))
      rw [List.zip_cons_cons, List.getD_cons_succ, List.getD_cons_succ]
      have hrec := lookup_zip_getD d ks vs i (List.nodup_cons.1 hn).2
        (Nat.lt_of_succ_lt_succ hik) (Nat.lt_of_succ_lt_succ hiv)
      rw [List.getD_cons_succ] at hne
      have hstep : List.lookup (ks.getD i "") ((k, v) :: ks.zip vs) =
          List.lookup (ks.getD i "") (ks.zip vs) := by
        simp only [List.lookup, hne]
      rw [hstep, hrec]

/-- C10: with the 19 standardized meta columns concatenated before the
n-gram columns in the training matrix, column `i < 19` of the design matrix
is exactly the meta feature of the `i`-th name, and the coefficient series
used in scoring pairs that same name with entry `i` of the coefficient row
— so every scored feature uses the weight the model assigned to that meta
feature. -/
theorem C10_coefficient_alignment (m : ℕ) (coefRow : List ℚ) (i : ℕ)
    (hlen : coefRow.length = features.length + m) (hi : i < features.length) :
    (X_full_cols m).getD i (TrainCol.ngram 0) = TrainCol.meta (features.getD i "") ∧
    List.lookup (features.getD i "") (feature_ranks coefRow) =
      some (coefRow.getD i 0) := by
  constructor
  · rw [X_full_cols, List.getD_eq_getElem?_getD,
      List.getElem?_append_left (by simpa using hi), List.getElem?_map,
      List.getElem?_eq_getElem hi, List.getD_eq_getElem?_getD,
      List.getElem?_eq_getElem hi]
    rfl
  · have htake : i < (coefRow.take features.length).length := by
      rw [List.length_take, hlen]
      omega
    rw [feature_ranks,
      lookup_zip_getD (0 : ℚ) features (coefRow.take features.length) i
        (by decide) hi htake]
    congr 1
    rw [List.getD_eq_getElem?_getD, List.getElem?_take, if_pos hi,
      List.getD_eq_getElem?_getD]

theorem vsum_map_fin : ∀ l : List ℚ, vsum (l.map Val.fin) = Val.fin l.sum
  | [] => rfl
  | x :: l => by
      show vadd (Val.fin x) (vsum (l.map Val.fin)) = Val.fin (x :: l).sum
      rw [vsum_map_fin l, List.sum_cons]
      rfl

theorem colMean_map_fin (l : List ℚ) :
    colMean (l.map Val.fin) =
      if l.length = 0 then Val.nan else Val.fin (l.sum / (l.length : ℚ)) := by
  have hfilter : (l.map Val.fin).filter (fun v => !v.isNan) = l.map Val.fin :=
    List.filter_eq_self.2 (by
      intro a ha
      obtain ⟨x, _, rfl⟩ := List.mem_map.1 ha
      rfl)
  simp only [colMean, hfilter, List.length_map, vsum_map_fin]
  split_ifs with h
  · rfl
  · simp [vdiv, Nat.cast_eq_zero, h]

theorem getD_map_of_lt {α β : Type} (f : α → β) (l : List α) (j : ℕ) (d : β)
    (d2 : α) (h : j < l.length) : (l.map f).getD j d = f (l.getD j d2) := by
  rw [List.getD_eq_getElem?_getD, List.getElem?_map, List.getElem?_eq_getElem h,
    List.getD_eq_getElem?_getD, List.getElem?_eq_getElem h]
  rfl

theorem fillZero_eq_fin {v : Val} (h : numericCell v = true) :
    fillZero v = Val.fin (cellToRat v) := by
  cases v <;> first | rfl | exact absurd h (by decide)

theorem keptRows_mem {cohort : List Row} {q : ℚ} {fs : List Val}
    (h : fs ∈ keptRows cohort q) : ∃ r, r ∈ cohort ∧ r.feats = fs := by
  rw [keptRows] at h
  obtain ⟨r, hr, rfl⟩ := List.mem_map.1 (List.mem_filter.1 h).1
  rw [top_projects] at hr
  exact ⟨r, (List.mem_filter.1 hr).1, rfl⟩

/-- C7: within the selected top cohort, the aggregation drops the rows in
which all 19 feature values are missing, fills the remaining missing values
with 0, and returns for each of the 19 feature columns exactly the
arithmetic mean (sum over kept rows divided by their count) of the filled
values. -/
theorem C7_reference_is_arithmetic_mean (cohort : List Row) (q : ℚ)
    (hrows : ∀ r ∈ cohort, r.feats.length = features.length ∧
        ∀ v ∈ r.feats, numericCell v = true) :
    avg_top_projects cohort q =
      (List.range features.length).map
        (fun j => (features.getD j "", referenceMeanSpec cohort q j)) := by
  simp only [avg_top_projects]
  apply List.map_congr_left
  intro j hj
  rw [List.mem_range] at hj
  refine congrArg (Prod.mk (features.getD j "")) ?_
  have hXc : X_cleaned (top_projects cohort q) =
      (keptRows cohort q).map (fun fs => fs.map fillZero) := rfl
  rw [hXc, List.map_map]
  have hcol :
      (keptRows cohort q).map
        ((fun fs => fs.getD j Val.nan) ∘ (fun fs => fs.map fillZero)) =
      ((keptRows cohort q).map
        (fun fs => cellToRat (fs.getD j Val.nan))).map Val.fin := by
    rw [List.map_map]
    apply List.map_congr_left
    intro fs hfs
    obtain ⟨r, hr, rfl⟩ := keptRows_mem hfs
    obtain ⟨hlen, hcells⟩ := hrows r hr
    have hjlen : j < r.feats.length := by rw [hlen]; exact hj
    show (r.feats.map fillZero).getD j Val.nan =
      Val.fin (cellToRat (r.feats.getD j Val.nan))
    rw [getD_map_of_lt fillZero r.feats j Val.nan Val.nan hjlen]
    have hmem : r.feats.getD j Val.nan ∈ r.feats := by
      rw [List.getD_eq_getElem _ _ hjlen]
      exact List.getElem_mem _
    exact fillZero_eq_fin (hcells _ hmem)
  rw [hcol, colMean_map_fin]
  simp only [referenceMeanSpec, List.length_map]

/-- C7 witness: a one-row all-ones cohort aggregates to the spec-side
arithmetic mean column by column. -/
theorem C7_reference_is_arithmetic_mean_witness :
    avg_top_projects [onesRow] 1 =
      (List.range features.length).map
        (fun j => (features.getD j "", referenceMeanSpec [onesRow] 1 j)) :=
  C7_reference_is_arithmetic_mean [onesRow] 1 (by decide)

/-- C10 witness: a 21-entry coefficient row (19 meta + 2 n-gram columns)
aligns name 0 with entry 0. -/
theorem C10_coefficient_alignment_witness :
    (X_full_cols 2).getD 0 (TrainCol.ngram 0) = TrainCol.meta "num_sents" ∧
    List.lookup "num_sents" (feature_ranks (List.replicate 21 (3 : ℚ))) =
      some 3 :=
  C10_coefficient_alignment 2 (List.replicate 21 3) 0 (by decide) (by decide)

end

end CampaignCritic
